import Mathlib

/-!
Verification development for the Mattermost Jira/Confluence bot
(`src/mattermost_bot/`).  The Python modules `storage.py`, `auth_manager.py`,
`llm_client.py`, `handlers.py` and `mcp_client.py` are shallowly embedded as
executable Lean definitions; external collaborators (the Fernet cipher, the
Python `json` standard library, the HTTP transports, the MCP session
primitives) are modelled as parameters at exactly the boundary where the
source calls them.
-/

set_option autoImplicit false

namespace MMBot

/-! ## Python semantics helpers -/

/-- The characters matched by Python's `str.strip()` and by the regex class
`\s` (ASCII range): space, tab, newline, carriage return, form feed,
vertical tab. -/
def isPySpace (c : Char) : Bool :=
  c = ' ' || c = '\t' || c = '\n' || c = Char.ofNat 13 ||
  c = Char.ofNat 12 || c = Char.ofNat 11

/-- Python `str.strip()`: remove leading and trailing whitespace. -/
def pyStrip (s : String) : String :=
  String.mk (((s.toList.dropWhile isPySpace).reverse.dropWhile isPySpace).reverse)

/-- Python truthiness of an `Optional[str]`: `None` and `""` are falsy. -/
def optTruthy : Option String → Bool
  | none => false
  | some s => s ≠ ""

/-- Python slice `s[:n]` on a string (by code point, as Python `str`). -/
def pyTake (n : Nat) (s : String) : String :=
  String.mk (s.toList.take n)

/-- Python slice `l[-n:]` on a list: the last `n` elements. -/
def pyLastN {α : Type} (n : Nat) (l : List α) : List α :=
  l.drop (l.length - n)

/-! ## JSON values

The Python `json` standard library is an external collaborator.  Values are
modelled by the inductive `Json`; serialisation (`json.dumps` with
`ensure_ascii=False` and default separators) is `jsonDumps`; parsing
(`json.loads`) is passed to the embedded functions as a parameter
`loads : String → Except String Json` (the `.error` case is Python's
`json.JSONDecodeError`).  `jsonLoads` below is a concrete recursive-descent
instance of that boundary covering the JSON fragment used in the concrete
scenarios of this development. -/

inductive Json where
  | null : Json
  | bool (b : Bool) : Json
  | num (n : Int) : Json
  | str (s : String) : Json
  | arr (elems : List Json) : Json
  | obj (fields : List (String × Json)) : Json
  deriving Repr, BEq, Inhabited

/-- `dict.get(key, default)` on a JSON object field list: first binding wins. -/
def jsonGet (fields : List (String × Json)) (key : String) (dflt : Json) : Json :=
  match fields.find? (fun kv => kv.1 = key) with
  | some kv => kv.2
  | none => dflt

def lbrace : Char := Char.ofNat 123
def rbrace : Char := Char.ofNat 125

/-- JSON string quoting with the escapes Python emits for the characters
appearing in this development (quote, backslash, newline, tab, CR). -/
def jsonQuoteChar (c : Char) : List Char :=
  if c = '\"' then ['\\', '\"']
  else if c = '\\' then ['\\', '\\']
  else if c = '\n' then ['\\', 'n']
  else if c = '\t' then ['\\', 't']
  else if c = Char.ofNat 13 then ['\\', 'r']
  else [c]

def jsonQuote (s : String) : String :=
  String.mk ('\"' :: (s.toList.flatMap jsonQuoteChar) ++ ['\"'])

mutual
/-- `json.dumps(v, ensure_ascii=False)` with the default separators
`", "` and `": "`. -/
def jsonDumps : Json → String
  | .null => "null"
  | .bool true => "true"
  | .bool false => "false"
  | .num n => toString n
  | .str s => jsonQuote s
  | .arr elems => "[" ++ jsonDumpsList elems ++ "]"
  | .obj fields => String.mk [lbrace] ++ jsonDumpsFields fields ++ String.mk [rbrace]

def jsonDumpsList : List Json → String
  | [] => ""
  | [v] => jsonDumps v
  | v :: rest => jsonDumps v ++ ", " ++ jsonDumpsList rest

def jsonDumpsFields : List (String × Json) → String
  | [] => ""
  | [kv] => jsonQuote kv.1 ++ ": " ++ jsonDumps kv.2
  | kv :: rest => jsonQuote kv.1 ++ ": " ++ jsonDumps kv.2 ++ ", " ++ jsonDumpsFields rest
end

/-- Skip JSON whitespace (space, tab, newline, CR). -/
def jsonSkipWs (cs : List Char) : List Char :=
  cs.dropWhile (fun c => c = ' ' || c = '\t' || c = '\n' || c = Char.ofNat 13)

/-- Parse a JSON string body after the opening quote; returns the decoded
characters and the remainder after the closing quote. -/
def parseStrBody (fuel : Nat) (cs : List Char) : Except String (List Char × List Char) :=
  match fuel, cs with
  | 0, _ => .error "Unterminated string"
  | _, [] => .error "Unterminated string"
  | fuel + 1, c :: rest =>
    if c = '\"' then .ok ([], rest)
    else if c = '\\' then
      match rest with
      | [] => .error "Unterminated string"
      | e :: rest2 =>
        let dec : Except String Char :=
          if e = '\"' then .ok '\"'
          else if e = '\\' then .ok '\\'
          else if e = '/' then .ok '/'
          else if e = 'n' then .ok '\n'
          else if e = 't' then .ok '\t'
          else if e = 'r' then .ok (Char.ofNat 13)
          else .error "Invalid escape"
        match dec with
        | .error msg => .error msg
        | .ok d =>
          match parseStrBody fuel rest2 with
          | .error msg => .error msg
          | .ok (body, rem) => .ok (d :: body, rem)
    else
      match parseStrBody fuel rest with
      | .error msg => .error msg
      | .ok (body, rem) => .ok (c :: body, rem)

/-- Parse an optionally signed decimal integer literal. -/
def parseIntLit (cs : List Char) : Except String (Int × List Char) :=
  let (neg, cs1) : Bool × List Char :=
    match cs with
    | '-' :: rest => (true, rest)
    | _ => (false, cs)
  let digits := cs1.takeWhile Char.isDigit
  let rest := cs1.dropWhile Char.isDigit
  if digits.isEmpty then .error "Expecting value"
  else
    let n : Nat := digits.foldl (fun acc c => acc * 10 + (c.toNat - 48)) 0
    .ok (if neg then -(n : Int) else (n : Int), rest)

mutual
/-- One JSON value, leading whitespace allowed. -/
def parseVal (fuel : Nat) (cs : List Char) : Except String (Json × List Char) :=
  match fuel with
  | 0 => .error "Expecting value"
  | fuel + 1 =>
    let cs := jsonSkipWs cs
    match cs with
    | [] => .error "Expecting value"
    | c :: rest =>
      if c = lbrace then parseObjFields fuel (jsonSkipWs rest) true
      else if c = '[' then parseArrElems fuel (jsonSkipWs rest) true
      else if c = '\"' then
        match parseStrBody fuel rest with
        | .error msg => .error msg
        | .ok (body, rem) => .ok (.str (String.mk body), rem)
      else if c = 't' then
        match cs with
        | 't' :: 'r' :: 'u' :: 'e' :: rem => .ok (.bool true, rem)
        | _ => .error "Expecting value"
      else if c = 'f' then
        match cs with
        | 'f' :: 'a' :: 'l' :: 's' :: 'e' :: rem => .ok (.bool false, rem)
        | _ => .error "Expecting value"
      else if c = 'n' then
        match cs with
        | 'n' :: 'u' :: 'l' :: 'l' :: rem => .ok (.null, rem)
        | _ => .error "Expecting value"
      else if c.isDigit || c = '-' then
        match parseIntLit cs with
        | .error msg => .error msg
        | .ok (n, rem) => .ok (.num n, rem)
      else .error "Expecting value"

/-- Object fields after the opening brace (`first` marks the position right
after it, where a closing brace ends an empty object). -/
def parseObjFields (fuel : Nat) (cs : List Char) (first : Bool) :
    Except String (Json × List Char) :=
  match fuel with
  | 0 => .error "Expecting value"
  | fuel + 1 =>
    match cs with
    | [] => .error "Expecting property name"
    | c :: rest =>
      if first && c = rbrace then .ok (.obj [], rest)
      else if c = '\"' then
        match parseStrBody fuel rest with
        | .error msg => .error msg
        | .ok (keyChars, afterKey) =>
          match jsonSkipWs afterKey with
          | ':' :: afterColon =>
            match parseVal fuel afterColon with
            | .error msg => .error msg
            | .ok (v, afterVal) =>
              match jsonSkipWs afterVal with
              | c2 :: afterSep =>
                if c2 = rbrace then
                  .ok (.obj [(String.mk keyChars, v)], afterSep)
                else if c2 = ',' then
                  match parseObjFields fuel (jsonSkipWs afterSep) false with
                  | .error msg => .error msg
                  | .ok (.obj fields, rem) =>
                    .ok (.obj ((String.mk keyChars, v) :: fields), rem)
                  | .ok _ => .error "Expecting property name"
                else .error "Expecting delimiter"
              | [] => .error "Expecting delimiter"
          | _ => .error "Expecting colon"
      else .error "Expecting property name"

/-- Array elements after the opening bracket. -/
def parseArrElems (fuel : Nat) (cs : List Char) (first : Bool) :
    Except String (Json × List Char) :=
  match fuel with
  | 0 => .error "Expecting value"
  | fuel + 1 =>
    match cs with
    | [] => .error "Expecting value"
    | c :: rest =>
      if first && c = ']' then .ok (.arr [], rest)
      else
        match parseVal fuel cs with
        | .error msg => .error msg
        | .ok (v, afterVal) =>
          match jsonSkipWs afterVal with
          | c2 :: afterSep =>
            if c2 = ']' then .ok (.arr [v], afterSep)
            else if c2 = ',' then
              match parseArrElems fuel (jsonSkipWs afterSep) false with
              | .error msg => .error msg
              | .ok (.arr elems, rem) => .ok (.arr (v :: elems), rem)
              | .ok _ => .error "Expecting value"
            else .error "Expecting delimiter"
          | [] => .error "Expecting delimiter"
end

/-- A concrete instance of the `json.loads` boundary: parse a full string as
one JSON document (trailing whitespace allowed, trailing garbage rejected,
as Python does). -/
def jsonLoads (s : String) : Except String Json :=
  match parseVal (s.length + 1) s.toList with
  | .error msg => .error msg
  | .ok (v, rest) =>
    if (jsonSkipWs rest).isEmpty then .ok v else .error "Extra data"

/-! ## storage.py

The Fernet authenticated-encryption primitive is an external collaborator
(`self.cipher`); it is modelled as a pair of string functions.  The SQLite
`users` table (with `mm_user_id` UNIQUE) is modelled as a list of rows with
at most one row per `mm_user_id`; `CURRENT_TIMESTAMP` / `datetime.now()`
enter as the parameter `now`. -/

structure Cipher where
  enc : String → String
  dec : String → String

/-- `Storage._encrypt`: empty input short-circuits to `""`, otherwise the
cipher encrypts. -/
def storageEncrypt (cipher : Cipher) (plaintext : String) : String :=
  if plaintext = "" then "" else cipher.enc plaintext

/-- `Storage._decrypt`: empty input short-circuits to `""`, otherwise the
cipher decrypts. -/
def storageDecrypt (cipher : Cipher) (ciphertext : String) : String :=
  if ciphertext = "" then "" else cipher.dec ciphertext

/-- One row of the `users` table. -/
structure UserRow where
  mm_user_id : String
  jira_username : Option String
  jira_password_encrypted : Option String
  confluence_username : Option String
  confluence_password_encrypted : Option String
  created_at : String
  updated_at : String
  deriving Repr, BEq

/-- `SELECT ... FROM users WHERE mm_user_id = ?` (the column is UNIQUE). -/
def findRow (db : List UserRow) (mm_user_id : String) : Option UserRow :=
  db.find? (fun r => r.mm_user_id = mm_user_id)

/-- `Storage.save_user_credentials`: upsert.  Secrets are encrypted before
write (`self._encrypt(p) if p else None`); on UPDATE only the fields whose
argument `is not None` are set, plus `updated_at`; on INSERT both timestamps
default to the current time. -/
def saveUserCredentials (cipher : Cipher) (now : String) (db : List UserRow)
    (mm_user_id : String)
    (jira_username jira_password confluence_username confluence_password :
      Option String) : List UserRow :=
  let existing := (findRow db mm_user_id).isSome
  let jira_encrypted : Option String :=
    if optTruthy jira_password then
      some (storageEncrypt cipher (jira_password.getD "")) else none
  let confluence_encrypted : Option String :=
    if optTruthy confluence_password then
      some (storageEncrypt cipher (confluence_password.getD "")) else none
  if existing then
    db.map (fun r =>
      if r.mm_user_id = mm_user_id then
        { r with
          jira_username :=
            if jira_username.isSome then jira_username else r.jira_username
          jira_password_encrypted :=
            if jira_password.isSome then jira_encrypted
            else r.jira_password_encrypted
          confluence_username :=
            if confluence_username.isSome then confluence_username
            else r.confluence_username
          confluence_password_encrypted :=
            if confluence_password.isSome then confluence_encrypted
            else r.confluence_password_encrypted
          updated_at := now }
      else r)
  else
    db ++ [{ mm_user_id := mm_user_id
             jira_username := jira_username
             jira_password_encrypted := jira_encrypted
             confluence_username := confluence_username
             confluence_password_encrypted := confluence_encrypted
             created_at := now
             updated_at := now }]

/-- The dictionary returned by `Storage.get_user_credentials`. -/
structure Credentials where
  jira_username : Option String
  jira_password : Option String
  confluence_username : Option String
  confluence_password : Option String
  deriving Repr, BEq

/-- `Storage.get_user_credentials`, instrumented with the number of
`Storage._decrypt` invocations its evaluation performs
(`self._decrypt(x) if x else None` calls `_decrypt` exactly when the stored
blob is truthy). -/
def getUserCredentialsCounted (cipher : Cipher) (db : List UserRow)
    (mm_user_id : String) : Credentials × Nat :=
  match findRow db mm_user_id with
  | none =>
    ({ jira_username := none, jira_password := none,
       confluence_username := none, confluence_password := none }, 0)
  | some r =>
    let jp : Option String × Nat :=
      if optTruthy r.jira_password_encrypted then
        (some (storageDecrypt cipher (r.jira_password_encrypted.getD "")), 1)
      else (none, 0)
    let cp : Option String × Nat :=
      if optTruthy r.confluence_password_encrypted then
        (some (storageDecrypt cipher (r.confluence_password_encrypted.getD "")), 1)
      else (none, 0)
    ({ jira_username := r.jira_username, jira_password := jp.1,
       confluence_username := r.confluence_username, confluence_password := cp.1 },
     jp.2 + cp.2)

def getUserCredentials (cipher : Cipher) (db : List UserRow)
    (mm_user_id : String) : Credentials :=
  (getUserCredentialsCounted cipher db mm_user_id).1

/-- `Storage.has_jira_credentials`, instrumented with the decryption count of
its evaluation: it calls `get_user_credentials` and then tests
`bool(creds["jira_username"] and creds["jira_password"])`. -/
def hasJiraCredentialsCounted (cipher : Cipher) (db : List UserRow)
    (mm_user_id : String) : Bool × Nat :=
  let r := getUserCredentialsCounted cipher db mm_user_id
  (optTruthy r.1.jira_username && optTruthy r.1.jira_password, r.2)

def hasJiraCredentials (cipher : Cipher) (db : List UserRow)
    (mm_user_id : String) : Bool :=
  (hasJiraCredentialsCounted cipher db mm_user_id).1

/-! ## llm_client.py

`LLMClient.chat` posts the message sequence to the model endpoint and parses
the streamed reply with `_parse_response`; that whole HTTP exchange
(including `_inject_tools_into_messages`) is the external boundary, entering
below as the raw response text.  What is embedded is everything `chat` does
with that text: `_extract_tool_calls` (the regex scan, the `json.loads` of
each captured group, and the capability-name filter) and `_clean_content`.

The two regex patterns of the source,
`<tool_call>\s*(\x7b.*?\x7d)\s*</tool_call>` for `re.findall` and the same
pattern without the capturing group for `re.sub`, describe the same matches;
both run in DOTALL mode with a lazy body.  `tryMatchAt` decides a match at
one position: the literal open tag, greedy whitespace, an opening brace, the
shortest body such that a closing brace followed by whitespace and the
literal close tag completes the match. -/

/-- Match a literal, returning the remainder. -/
def stripLit : List Char → List Char → Option (List Char)
  | [], cs => some cs
  | _ :: _, [] => none
  | l :: ls, c :: cs => if c = l then stripLit ls cs else none

/-- Greedy `\s*` (backtracking into it can never help before a literal that
starts with a non-space character). -/
def skipWs (cs : List Char) : List Char := cs.dropWhile isPySpace

def openTag : List Char := "<tool_call>".toList
def closeTag : List Char := "</tool_call>".toList

/-- The lazy `.*?\x7d\s*</tool_call>` tail: try the shortest body first; a
closing brace whose continuation fails is swallowed by the dot (DOTALL) and
scanning continues.  Returns the body (without the final brace) and the
remainder after the close tag. -/
def lazyBody : List Char → Option (List Char × List Char)
  | [] => none
  | c :: rest =>
    if c = rbrace then
      match stripLit closeTag (skipWs rest) with
      | some after => some ([], after)
      | none =>
        match lazyBody rest with
        | some (body, after) => some (c :: body, after)
        | none => none
    else
      match lazyBody rest with
      | some (body, after) => some (c :: body, after)
      | none => none

/-- Try the whole pattern at this position; on success return the captured
group `\x7b...\x7d` and the remainder after the match. -/
def tryMatchAt (cs : List Char) : Option (List Char × List Char) :=
  match stripLit openTag cs with
  | none => none
  | some r1 =>
    match skipWs r1 with
    | c :: r2 =>
      if c = lbrace then
        match lazyBody r2 with
        | some (body, after) => some (lbrace :: body ++ [rbrace], after)
        | none => none
      else none
    | [] => none

/-- `re.findall`: leftmost non-overlapping matches, collecting the captured
groups.  Every step consumes at least one character, so fuel equal to the
input length is enough. -/
def scanGroups (fuel : Nat) (cs : List Char) : List (List Char) :=
  match fuel, cs with
  | 0, _ => []
  | _, [] => []
  | fuel + 1, c :: rest =>
    match tryMatchAt (c :: rest) with
    | some (g, after) => g :: scanGroups fuel after
    | none => scanGroups fuel rest

def findGroups (content : String) : List String :=
  (scanGroups content.toList.length content.toList).map String.mk

/-- `re.sub(pattern, "", content)`: drop every leftmost non-overlapping
match, keep everything else. -/
def scanSub (fuel : Nat) (cs : List Char) : List Char :=
  match fuel, cs with
  | 0, rest => rest
  | _, [] => []
  | fuel + 1, c :: rest =>
    match tryMatchAt (c :: rest) with
    | some (_, after) => scanSub fuel after
    | none => c :: scanSub fuel rest

/-- `LLMClient._clean_content`: remove the `<tool_call>` blocks, then
`.strip()`. -/
def cleanContent (content : String) : String :=
  pyStrip (String.mk (scanSub content.toList.length content.toList))

/-- A tool from `mcp_client.list_tools` (name / description / inputSchema). -/
structure MCPTool where
  name : String
  description : String
  inputSchema : Json
  deriving Repr, BEq

/-- A tool in OpenAI function format, as built by
`format_mcp_tools_for_openai` (the wrapper dict: `function.name`,
`function.description`, `function.parameters`). -/
structure OAITool where
  name : String
  description : String
  parameters : Json
  deriving Repr, BEq

/-- `LLMClient.format_mcp_tools_for_openai`. -/
def formatMcpToolsForOpenai (mcp_tools : List MCPTool) : List OAITool :=
  mcp_tools.map (fun t =>
    { name := t.name, description := t.description, parameters := t.inputSchema })

/-- The set `tool_names` of `_extract_tool_calls`:
`t.get("function", t).get("name", "")` over the supplied tools. -/
def toolNames (tools : List OAITool) : List String := tools.map (fun t => t.name)

/-- One element of the `tool_calls` list that `chat` returns: the id is
`call_` followed by the index of the match, the arguments are re-serialised
with `json.dumps(..., ensure_ascii=False)`. -/
structure ToolCallRec where
  id : String
  name : String
  argumentsStr : String
  deriving Repr, BEq

/-- The `for i, match in enumerate(matches)` loop of `_extract_tool_calls`.
A group that fails `json.loads` (`JSONDecodeError`) is skipped.  A group
that parses to a non-object would make `.get` raise `AttributeError`
(surfaced as `.error`; unreachable for a brace-delimited group under a
JSON-conformant `loads`).  The name is kept only when it is a string that is
a member of `tool_names` (Python set membership of a non-string name against
a set of strings is `False`). -/
def extractLoop (loads : String → Except String Json) (tool_names : List String) :
    Nat → List String → Except String (List ToolCallRec)
  | _, [] => .ok []
  | i, g :: gs =>
    match loads g with
    | .error _ => extractLoop loads tool_names (i + 1) gs
    | .ok (.obj fields) =>
      let name := jsonGet fields "name" (.str "")
      let arguments := jsonGet fields "arguments" (.obj [])
      let keep : Option ToolCallRec :=
        match name with
        | .str s =>
          if s ∈ tool_names then
            some { id := "call_" ++ toString i, name := s,
                   argumentsStr := jsonDumps arguments }
          else none
        | _ => none
      match extractLoop loads tool_names (i + 1) gs with
      | .error e => .error e
      | .ok rest =>
        .ok (match keep with
             | some tc => tc :: rest
             | none => rest)
    | .ok _ => .error "AttributeError"

/-- `LLMClient._extract_tool_calls`: `None` when the scan finds no group or
when none survives parsing and the name filter. -/
def extractToolCalls (loads : String → Except String Json)
    (content : String) (tools : List OAITool) :
    Except String (Option (List ToolCallRec)) :=
  let found := findGroups content
  if found.isEmpty then .ok none
  else
    match extractLoop loads (toolNames tools) 0 found with
    | .error e => .error e
    | .ok tool_calls =>
      .ok (if tool_calls.isEmpty then none else some tool_calls)

/-- The normalized result `chat` returns: `content` and `tool_calls`. -/
structure LLMResult where
  content : String
  tool_calls : Option (List ToolCallRec)
  deriving Repr, BEq

/-- `LLMClient.chat` applied to the parsed response text `raw`: tool calls
are extracted only when `tools` is truthy (non-empty); the visible content
is always cleaned. -/
def chatResult (loads : String → Except String Json) (raw : String)
    (tools : List OAITool) : Except String LLMResult :=
  let extracted : Except String (Option (List ToolCallRec)) :=
    if tools.isEmpty then .ok none else extractToolCalls loads raw tools
  match extracted with
  | .error e => .error e
  | .ok tool_calls => .ok { content := cleanContent raw, tool_calls := tool_calls }

/-! ## handlers.py — conversation history -/

/-- A message dictionary as used in the handler: role, optional content,
optional converted tool calls (arguments parsed back to JSON), optional
tool-call id. -/
structure ConvCall where
  id : String
  name : String
  arguments : Json
  deriving Repr, BEq

structure PyMsg where
  role : String
  content : Option String := none
  tool_calls : Option (List ConvCall) := none
  tool_call_id : Option String := none
  deriving Repr, BEq

/-- `MessageHandlers._save_conversation`: append the `(user, assistant)`
pair for the user, then truncate to the last `max_history = 20` entries
when the cap is exceeded.  `self.conversation_history` is modelled as a
total map with default `[]` (the source always reads it through
`.get(uid, [])` or guards with membership tests). -/
def saveConversation (history : String → List PyMsg)
    (mm_user_id user_message assistant_response : String) :
    String → List PyMsg :=
  fun u =>
    if u = mm_user_id then
      let extended := history mm_user_id ++
        [{ role := "user", content := some user_message },
         { role := "assistant", content := some assistant_response }]
      if extended.length > 20 then pyLastN 20 extended else extended
    else history u

/-- `MessageHandlers.clear_conversation`: `del` of the user's entry, i.e.
back to the default `[]`. -/
def clearConversation (history : String → List PyMsg) (mm_user_id : String) :
    String → List PyMsg :=
  fun u => if u = mm_user_id then [] else history u

/-- A sequence of history operations (completed exchanges and resets). -/
inductive HistOp where
  | save (mm_user_id user_message assistant_response : String)
  | clear (mm_user_id : String)

def runHistOps : (String → List PyMsg) → List HistOp → (String → List PyMsg)
  | h, [] => h
  | h, .save u q r :: ops => runHistOps (saveConversation h u q r) ops
  | h, .clear u :: ops => runHistOps (clearConversation h u) ops

/-! ## handlers.py — the query orchestration loop -/

/-- The outcome of the per-call body at `handlers.py:278-309` for one
requested tool call: the appended `tool` turn, the string appended to
`all_tool_results` (only on success), and the `mcp_client.call_tool`
invocation actually performed (absent when `json.loads` of the arguments
raised first).  `callTool` is the invocation boundary; its `.ok` value is
the result already formatted to the string the handler computes
(`json.dumps(result, ...)` for dicts, `str(result)` otherwise) and its
`.error` is a raised exception's message, which the handler converts into
a placeholder turn instead of aborting. -/
structure OneCallOut where
  turn : PyMsg
  resultStr : Option String
  invokedCall : Option (String × Json)
  deriving Repr, BEq

def processOneCall (loads : String → Except String Json)
    (callTool : String → Json → Except String String)
    (tc : ToolCallRec) : OneCallOut :=
  match loads tc.argumentsStr with
  | .error e =>
    { turn := { role := "tool", content := some ("Ошибка: " ++ e),
                tool_call_id := some tc.id },
      resultStr := none, invokedCall := none }
  | .ok args =>
    match callTool tc.name args with
    | .ok result_str =>
      { turn := { role := "tool", content := some result_str,
                  tool_call_id := some tc.id },
        resultStr := some result_str, invokedCall := some (tc.name, args) }
    | .error e =>
      { turn := { role := "tool", content := some ("Ошибка: " ++ e),
                  tool_call_id := some tc.id },
        resultStr := none, invokedCall := some (tc.name, args) }

/-- The accumulated effect of the `for tool_call in tool_calls` loop. -/
structure RoundOut where
  tool_results : List PyMsg
  all_results : List String
  invoked : List (String × Json)
  deriving Repr, BEq

def processToolCalls (loads : String → Except String Json)
    (callTool : String → Json → Except String String) :
    List ToolCallRec → RoundOut
  | [] => { tool_results := [], all_results := [], invoked := [] }
  | tc :: rest =>
    let one := processOneCall loads callTool tc
    let restOut := processToolCalls loads callTool rest
    { tool_results := one.turn :: restOut.tool_results
      all_results := one.resultStr.toList ++ restOut.all_results
      invoked := one.invokedCall.toList ++ restOut.invoked }

/-- The conversion loop at `handlers.py:317-327`: the arguments of every
tool call are `json.loads`-ed again, outside any `try`, so a failure
propagates as an exception. -/
def convertToolCalls (loads : String → Except String Json) :
    List ToolCallRec → Except String (List ConvCall)
  | [] => .ok []
  | tc :: rest =>
    match loads tc.argumentsStr with
    | .error e => .error e
    | .ok args =>
      match convertToolCalls loads rest with
      | .error e => .error e
      | .ok cs => .ok ({ id := tc.id, name := tc.name, arguments := args } :: cs)

/-- Python truthiness of `response.get("tool_calls")`. -/
def toolCallsTruthy : Option (List ToolCallRec) → Bool
  | none => false
  | some l => !l.isEmpty

/-- `"\n---\n".join(r[:1000] for r in all_tool_results[-3:])`. -/
def joinResults (rs : List String) : String :=
  String.intercalate "\n---\n" ((pyLastN 3 rs).map (pyTake 1000))

/-- The outcome of the bounded round loop: the final response or the
exception that escaped (`outcome`), with the number of model-gateway calls
made, the accumulated `all_tool_results`, and every `call_tool` invocation
performed along the way. -/
structure LoopRes where
  outcome : Except String String
  llm_calls : Nat
  all_results : List String
  invoked : List (String × Json)
  deriving Repr

/-- The `for iteration in range(max_iterations)` loop of
`_handle_user_query` (`max_iterations = 5`), with the post-loop exhaustion
handling at `handlers.py:352-362` as the fuel-0 case.  `chatFn` is one
round's model-gateway call (`llm_client.chat` on the current messages with
the exchange's tool manifest). -/
def queryLoop (chatFn : List PyMsg → Except String LLMResult)
    (loads : String → Except String Json)
    (callTool : String → Json → Except String String) :
    Nat → List PyMsg → List String → LoopRes
  | 0, _msgs, all_tool_results =>
    { outcome := .ok (
        if all_tool_results.isEmpty then
          "Не удалось завершить запрос - слишком много итераций"
        else
          "Результаты выполнения (достигнут лимит запросов):\n" ++
            joinResults all_tool_results)
      llm_calls := 0, all_results := all_tool_results, invoked := [] }
  | fuel + 1, msgs, all_tool_results =>
    match chatFn msgs with
    | .error e =>
      { outcome := .error e, llm_calls := 1,
        all_results := all_tool_results, invoked := [] }
    | .ok response =>
      if toolCallsTruthy response.tool_calls then
        let tcs := response.tool_calls.getD []
        let round := processToolCalls loads callTool tcs
        match convertToolCalls loads tcs with
        | .error e =>
          { outcome := .error e, llm_calls := 1,
            all_results := all_tool_results ++ round.all_results,
            invoked := round.invoked }
        | .ok converted =>
          let assistant_message : PyMsg :=
            { role := "assistant", content := some response.content,
              tool_calls := some converted }
          let rest := queryLoop chatFn loads callTool fuel
            (msgs ++ [assistant_message] ++ round.tool_results)
            (all_tool_results ++ round.all_results)
          { rest with llm_calls := rest.llm_calls + 1,
                      invoked := round.invoked ++ rest.invoked }
      else
        let content := response.content
        let final_response :=
          if pyStrip content ≠ "" then content
          else if !all_tool_results.isEmpty then
            "Результаты выполнения:\n" ++ joinResults all_tool_results
          else "Не удалось получить ответ от LLM"
        { outcome := .ok final_response, llm_calls := 1,
          all_results := all_tool_results, invoked := [] }

/-- The system instruction of `_handle_user_query` (`handlers.py:223-248`);
`datetime.now()` enters as the `today` / `year` parameters. -/
def systemContent (today year : String) : String :=
  "Ты помощник для работы с Jira и Confluence. " ++
  "Используй доступные инструменты для выполнения запросов пользователя. " ++
  "КРИТИЧЕСКИ ВАЖНО: ВСЕГДА отвечай ТОЛЬКО на РУССКОМ языке! " ++
  "ВСЕ ответы, объяснения, анализ и комментарии ОБЯЗАТЕЛЬНО должны быть на РУССКОМ! " ++
  "НИКОГДА не отвечай на английском! " ++
  "\n\nТЕКУЩАЯ ДАТА: " ++ today ++ " (год " ++ year ++ "). " ++
  "Если пользователь не указывает год, используй текущий год!" ++
  "\n\nПОИСК ЗАДАЧ ПОЛЬЗОВАТЕЛЯ ПО ИМЕНИ: " ++
  "Если нужно найти задачи пользователя по имени (например, \x27Сергей Журавлев\x27), " ++
  "выполни два шага:\n" ++
  "1. Сначала вызови search_users с query=\x27Журавлев\x27 чтобы найти username пользователя\n" ++
  "2. Затем используй найденный username в JQL или search_worklogs\n" ++
  "НЕ используй оператор ~ с именем в поле assignee - он не работает!" ++
  "\n\nКРИТИЧНО - НЕ ВЫДУМЫВАЙ ИНФОРМАЦИЮ: " ++
  "НИКОГДА не выдумывай номера задач (PROJ-123), имена проектов, результаты запросов или любые другие данные! " ++
  "Если запрос непонятен или слишком короткий (например, просто \x27да\x27 или \x27ок\x27), " ++
  "попроси пользователя уточнить, что именно он хочет сделать. " ++
  "Всегда используй инструменты для получения реальных данных из Jira/Confluence!" ++
  "\n\nАНАЛИЗ ДАННЫХ: Когда получаешь данные из инструментов, АНАЛИЗИРУЙ их и давай КРАТКИЙ ОТВЕТ на вопрос пользователя. " ++
  "НЕ описывай структуру JSON, а извлеки из данных нужную информацию и представь её понятно." ++
  "\n\nУ тебя есть доступ к истории беседы. Используй контекст предыдущих сообщений для понимания запросов."

/-- What `_handle_user_query` produces besides the new history map. -/
structure QueryOut where
  reply : String
  llm_calls : Nat
  invoked : List (String × Json)
  deriving Repr, BEq

/-- `MessageHandlers._handle_user_query` from the boundary of the MCP tool
list: `tools` is the result of `mcp_client.list_tools` (the credential
lookup and the Basic-auth header construction feed only that boundary and
`callTool`).  The empty tool list short-circuits; otherwise the message
sequence `system + history + user` seeds the bounded loop; on a normal
outcome `_save_conversation` runs, while an escaped exception is converted
by the outer `except` into an error reply without touching the history. -/
def handleUserQuery (loads : String → Except String Json)
    (chatFn : List PyMsg → Except String LLMResult)
    (callTool : String → Json → Except String String)
    (today year : String)
    (history : String → List PyMsg) (mm_user_id query : String)
    (tools : List MCPTool) : QueryOut × (String → List PyMsg) :=
  if tools.isEmpty then
    ({ reply := "Не удалось получить список инструментов MCP. Проверьте настройки сервера."
       llm_calls := 0, invoked := [] }, history)
  else
    let system_message : PyMsg :=
      { role := "system", content := some (systemContent today year) }
    let msgs := system_message :: history mm_user_id ++
      [{ role := "user", content := some query }]
    let res := queryLoop chatFn loads callTool 5 msgs []
    match res.outcome with
    | .ok final_response =>
      ({ reply := final_response, llm_calls := res.llm_calls,
         invoked := res.invoked },
       saveConversation history mm_user_id query final_response)
    | .error e =>
      ({ reply := "Произошла ошибка при обработке запроса: " ++ e,
         llm_calls := res.llm_calls, invoked := res.invoked }, history)

/-- The gateway call as the source composes it: each round posts the
current messages and the exchange's OpenAI-format manifest to
`llm_client.chat`; `rawOracle` is the model endpoint behaviour (the parsed
response text per message sequence, `.error` for a raised transport
exception). -/
def chatOf (loads : String → Except String Json)
    (rawOracle : List PyMsg → Except String String)
    (openai_tools : List OAITool) :
    List PyMsg → Except String LLMResult :=
  fun msgs =>
    match rawOracle msgs with
    | .error e => .error e
    | .ok raw => chatResult loads raw openai_tools

/-! ## Python dict helpers (string-keyed) -/

def assocFind {α : Type} (l : List (String × α)) (k : String) : Option α :=
  (l.find? (fun kv => kv.1 = k)).map (fun kv => kv.2)

/-- `d[k] = v`: replace an existing binding, else append. -/
def assocSet {α : Type} (l : List (String × α)) (k : String) (v : α) :
    List (String × α) :=
  if (l.find? (fun kv => kv.1 = k)).isSome then
    l.map (fun kv => if kv.1 = k then (k, v) else kv)
  else l ++ [(k, v)]

/-- `del d[k]`. -/
def assocDel {α : Type} (l : List (String × α)) (k : String) :
    List (String × α) :=
  l.filter (fun kv => kv.1 ≠ k)

/-! ## handlers.py — the credential-collection dialog

`MessageHandlers._handle_dialog_state`.  The interesting point is the
`AWAITING_PASSWORD` branch: `handlers.py:158` reads the attribute
`save_and_validate_both` off the `AuthManager` instance.  `auth_manager.py`
defines no such attribute (its attributes are listed in
`authManagerAttrs` below), so in Python the lookup raises `AttributeError`
before any validation can run.  The embedding performs the same lookup
against the attribute table; the branch the source wrote for the call's
result (`handlers.py:161-179`) is embedded under the (dead) case where the
attribute exists, with the would-be return value supplied as `valRes`. -/

def DIALOG_STATE_NONE : String := "none"
def DIALOG_STATE_WAITING_USERNAME : String := "waiting_username"
def DIALOG_STATE_WAITING_PASSWORD : String := "waiting_password"

/-- Attributes of an `AuthManager` instance: the fields set in `__init__`
and the methods defined on the class in `auth_manager.py`. -/
def authManagerAttrs : List String :=
  ["storage", "jira_url", "confluence_url",
   "validate_jira_credentials", "validate_confluence_credentials",
   "save_and_validate_jira", "save_and_validate_confluence",
   "get_user_auth_headers"]

def attributeErrorBoth : String :=
  "AttributeError: \x27AuthManager\x27 object has no attribute \x27save_and_validate_both\x27"

/-- The dialog-relevant in-memory state of `MessageHandlers`:
`dialog_states` and `temp_data` (the latter keeps, per user, the value of
the `"username"` key of the temp dict, `none` while the dict is empty). -/
structure DialogSt where
  dialog_states : List (String × String)
  temp_data : List (String × Option String)
  deriving Repr, BEq

def handleDialogState (jira_url : String) (confluence_url : Option String)
    (valRes : Bool × Option String)
    (st : DialogSt) (mm_user_id message state : String) :
    Except String (String × DialogSt) :=
  if state = DIALOG_STATE_WAITING_USERNAME then
    match assocFind st.temp_data mm_user_id with
    | none => .error ("KeyError: " ++ mm_user_id)
    | some _ =>
      .ok ("Введите ваш пароль (используется для Jira и Confluence):",
        { dialog_states :=
            assocSet st.dialog_states mm_user_id DIALOG_STATE_WAITING_PASSWORD
          temp_data := assocSet st.temp_data mm_user_id (some message) })
  else if state = DIALOG_STATE_WAITING_PASSWORD then
    match assocFind st.temp_data mm_user_id with
    | none => .error ("KeyError: " ++ mm_user_id)
    | some none => .error "KeyError: \x27username\x27"
    | some (some _username) =>
      if "save_and_validate_both" ∈ authManagerAttrs then
        -- dead branch: the attribute does not exist in auth_manager.py
        if valRes.1 then
          let services :=
            (if jira_url ≠ "" then ["Jira"] else []) ++
            (if optTruthy confluence_url then ["Confluence"] else [])
          .ok ("✅ Учетные данные успешно настроены для " ++
                 String.intercalate " и " services ++ "!\n\n" ++
                 "Теперь вы можете задавать вопросы, связанные с Jira и Confluence.",
            { dialog_states :=
                assocSet st.dialog_states mm_user_id DIALOG_STATE_NONE
              temp_data := assocDel st.temp_data mm_user_id })
        else
          .ok ("❌ Ошибка при настройке учетных данных: " ++
                 (match valRes.2 with | some m => m | none => "None") ++ "\n\n" ++
                 "Попробуйте еще раз. Введите ваш логин для Jira (он же используется для Confluence):",
            { dialog_states :=
                assocSet st.dialog_states mm_user_id DIALOG_STATE_WAITING_USERNAME
              temp_data := st.temp_data })
      else .error attributeErrorBoth
  else
    .ok ("Неизвестное состояние диалога. Начните заново с команды /start", st)

/-! ## mcp_client.py — per-user session management

`MCPClient._get_or_create_session`.  The transport and protocol primitives
(`streamablehttp_client(...).__aenter__`, `ClientSession(...).__aenter__`,
`session.initialize()`) are the external boundary, modelled by `HsOracle`;
the returned step list records which of the three handshake steps were
performed. -/

inductive HsStep where
  | transport
  | session
  | protoInit
  deriving Repr, BEq

structure HsOracle (Transport Session : Type) where
  enterCtx : Except String Transport
  enterSession : Transport → Except String Session
  doInit : Session → Except String Unit

structure MCPState (Transport Session : Type) where
  user_sessions : List (String × Session)
  user_contexts : List (String × Transport)
  mcp_url : Option String

def getOrCreateSession {Transport Session : Type}
    (hs : HsOracle Transport Session)
    (st : MCPState Transport Session) (mm_user_id : String) :
    Except String Session × MCPState Transport Session × List HsStep :=
  match assocFind st.user_sessions mm_user_id with
  | some session => (.ok session, st, [])
  | none =>
    if !optTruthy st.mcp_url then
      (.error "MCP сервер не запущен", st, [])
    else
      match hs.enterCtx with
      | .error e => (.error e, st, [.transport])
      | .ok context =>
        match hs.enterSession context with
        | .error e => (.error e, st, [.transport, .session])
        | .ok session =>
          match hs.doInit session with
          | .error e => (.error e, st, [.transport, .session, .protoInit])
          | .ok _ =>
            (.ok session,
             { st with
               user_sessions := assocSet st.user_sessions mm_user_id session
               user_contexts := assocSet st.user_contexts mm_user_id context },
             [.transport, .session, .protoInit])

/-! ## Concrete instances for closed statements

A cipher instance for closed statements: prepend a marker character,
decryption drops it.  It satisfies the two boundary properties assumed of
the external authenticated-encryption primitive (round trip, and ciphertext
strictly longer than the plaintext — a Fernet token is a base64-encoded
version byte, timestamp, IV, padded ciphertext and HMAC, always longer than
the plaintext). -/

def hashCipher : Cipher :=
  { enc := fun s => String.mk ('#' :: s.toList)
    dec := fun s => String.mk (s.toList.drop 1) }

def rowU1 : UserRow :=
  { mm_user_id := "u1"
    jira_username := some "maria"
    jira_password_encrypted := some (storageEncrypt hashCipher "s3cret")
    confluence_username := none
    confluence_password_encrypted := none
    created_at := "2026-01-01"
    updated_at := "2026-01-01" }

def rowU2 : UserRow :=
  { mm_user_id := "u2"
    jira_username := some "ivan"
    jira_password_encrypted := some (storageEncrypt hashCipher "pw2")
    confluence_username := some "ivan"
    confluence_password_encrypted := some (storageEncrypt hashCipher "pw2")
    created_at := "2026-01-02"
    updated_at := "2026-01-02" }

def mcpSearchUsers : MCPTool :=
  { name := "search_users", description := "Поиск пользователей",
    inputSchema := .obj [("type", .str "object")] }

/-- A dialog state holding a candidate username for user `u1`. -/
def dialogStU1 : DialogSt :=
  { dialog_states := [("u1", DIALOG_STATE_WAITING_PASSWORD)]
    temp_data := [("u1", some "maria")] }

/-- A handshake oracle whose protocol-initialization step fails. -/
def c6Oracle : HsOracle Nat Nat :=
  { enterCtx := .ok 1
    enterSession := fun _ => .ok 2
    doInit := fun _ => .error "init failed" }

/-- A session-manager state with a cached live session for user `u2`. -/
def c6St : MCPState Nat Nat :=
  { user_sessions := [("u2", 7)]
    user_contexts := [("u2", 1)]
    mcp_url := some "http://127.0.0.1:8000/mcp" }

/-- A tool call as `chat` would return it (arguments re-serialised). -/
def tcSearch : ToolCallRec :=
  { id := "call_0", name := "search_users"
    argumentsStr := jsonDumps (.obj []) }

/-- A model gateway that requests a tool call on every round. -/
def chatAlwaysTool : List PyMsg → Except String LLMResult :=
  fun _ => .ok { content := "", tool_calls := some [tcSearch] }

/-- A tool-invocation boundary that always succeeds with a fixed result. -/
def callToolOk : String → Json → Except String String :=
  fun _ _ => .ok "RES"

/-- A tool-invocation boundary that always raises. -/
def callToolBoom : String → Json → Except String String :=
  fun _ _ => .error "MCP session error"

/-- A raw model output carrying one known and one unknown capability call. -/
def rawTwoCalls : String :=
  "Выполняю: <tool_call>\x7b\"name\": \"search_users\", \"arguments\": \x7b\"query\": \"t\"\x7d\x7d</tool_call>" ++
  " <tool_call>\x7b\"name\": \"unknown_tool\", \"arguments\": \x7b\x7d\x7d</tool_call>"

/-- A model endpoint that always answers with `rawTwoCalls`. -/
def rawOracleTwoCalls : List PyMsg → Except String String :=
  fun _ => .ok rawTwoCalls

/-! # Theorems -/

theorem hashCipher_roundtrip (s : String) :
    hashCipher.dec (hashCipher.enc s) = s := by
  cases s
  rfl

theorem hashCipher_expands (s : String) :
    s.length < (hashCipher.enc s).length := by
  cases s with
  | mk data => exact Nat.lt_succ_self data.length

/-- C8: decrypting the encryption of any secret string yields the string
back, and for non-empty input the stored representation differs from the
plaintext.  The two hypotheses are the boundary contract of the external
cipher (round trip; ciphertext strictly longer than plaintext, which holds
for Fernet tokens). -/
theorem c8_encrypt_roundtrip_not_plaintext (cipher : Cipher)
    (hrt : ∀ s, cipher.dec (cipher.enc s) = s)
    (hexp : ∀ s, s.length < (cipher.enc s).length) (s : String) :
    storageDecrypt cipher (storageEncrypt cipher s) = s ∧
      (s ≠ "" → storageEncrypt cipher s ≠ s) := by
  constructor
  · by_cases hs : s = ""
    · subst hs
      simp [storageEncrypt, storageDecrypt]
    · have hne : cipher.enc s ≠ "" := by
        intro h0
        have h1 := hexp s
        rw [h0] at h1
        simp at h1
      simp [storageEncrypt, storageDecrypt, hs, hne, hrt]
  · intro hs heq
    have henc : storageEncrypt cipher s = cipher.enc s := if_neg hs
    rw [henc] at heq
    have h1 := hexp s
    rw [heq] at h1
    exact lt_irrefl _ h1

/-- Witness for C8 at the concrete cipher and a concrete secret. -/
theorem c8_witness :
    storageDecrypt hashCipher (storageEncrypt hashCipher "s3cret") = "s3cret" ∧
      ("s3cret" ≠ "" → storageEncrypt hashCipher "s3cret" ≠ "s3cret") :=
  c8_encrypt_roundtrip_not_plaintext hashCipher hashCipher_roundtrip
    hashCipher_expands "s3cret"

/-- C3 counterexample: the claim asserts the has-credentials check never
invokes the decryption primitive, but evaluating it on a store holding a
registered user performs one decryption (`has_jira_credentials` goes
through `get_user_credentials`, which decrypts every truthy stored blob):
the instrumented decryption count is 1, not 0. -/
theorem c3_counterexample :
    hasJiraCredentialsCounted hashCipher [rowU1] "u1" = (true, 1) := by
  rfl

/-- C3 (amended): `has_jira_credentials(u)` returns true iff the stored
record for `u` has a truthy username and a truthy stored secret whose
decryption is non-empty; but its evaluation does invoke the decryption
primitive — at least once whenever a truthy secret blob is stored. -/
theorem c3_has_credentials_amended (cipher : Cipher) (db : List UserRow)
    (mm_user_id : String) :
    (hasJiraCredentials cipher db mm_user_id = true ↔
      ∃ r, findRow db mm_user_id = some r ∧
        optTruthy r.jira_username = true ∧
        optTruthy r.jira_password_encrypted = true ∧
        storageDecrypt cipher (r.jira_password_encrypted.getD "") ≠ "") ∧
    (∀ r, findRow db mm_user_id = some r →
      optTruthy r.jira_password_encrypted = true →
      1 ≤ (hasJiraCredentialsCounted cipher db mm_user_id).2) := by
  constructor
  · cases hfind : findRow db mm_user_id with
    | none =>
      simp [hasJiraCredentials, hasJiraCredentialsCounted,
        getUserCredentialsCounted, hfind, optTruthy]
    | some r =>
      simp only [hasJiraCredentials, hasJiraCredentialsCounted,
        getUserCredentialsCounted, hfind]
      cases htr : optTruthy r.jira_password_encrypted with
      | false =>
        simp only [htr, Bool.false_eq_true, if_false]
        constructor
        · intro hl
          rw [Bool.and_eq_true] at hl
          exact absurd hl.2 (by simp [optTruthy])
        · rintro ⟨r2, hr2, _, htr2, _⟩
          rw [Option.some.injEq] at hr2
          subst hr2
          rw [htr] at htr2
          exact absurd htr2 (by simp)
      | true =>
        simp only [htr, if_true]
        constructor
        · intro hl
          rw [Bool.and_eq_true] at hl
          refine ⟨r, rfl, hl.1, htr, ?_⟩
          have h2 := hl.2
          simpa [optTruthy] using h2
        · rintro ⟨r2, hr2, hju, _, hdec⟩
          rw [Option.some.injEq] at hr2
          subst hr2
          rw [Bool.and_eq_true]
          exact ⟨hju, by simpa [optTruthy] using hdec⟩
  · intro r hfind htr
    simp [hasJiraCredentialsCounted, getUserCredentialsCounted, hfind, htr]

/-- Witness for C3's amended statement at a concrete store. -/
theorem c3_witness :
    hasJiraCredentials hashCipher [rowU1] "u1" = true ∧
      1 ≤ (hasJiraCredentialsCounted hashCipher [rowU1] "u1").2 :=
  ⟨(c3_has_credentials_amended hashCipher [rowU1] "u1").1.mpr
      ⟨rowU1, by rfl, by rfl, by rfl, by decide⟩,
   (c3_has_credentials_amended hashCipher [rowU1] "u1").2 rowU1 (by rfl) (by rfl)⟩

/-- Shared characterization of `_save_conversation`: the truncation branch
collapses into "keep the last 20 entries" unconditionally (when the
extended history has at most 20 entries, dropping `length - 20 = 0`
elements is the identity). -/
theorem saveConversation_eq (history : String → List PyMsg)
    (u q r x : String) :
    saveConversation history u q r x =
      if x = u then
        pyLastN 20 (history u ++
          [{ role := "user", content := some q },
           { role := "assistant", content := some r }])
      else history x := by
  by_cases hx : x = u
  · simp only [saveConversation, hx, if_pos rfl]
    set l := history u ++
      [({ role := "user", content := some q } : PyMsg),
       { role := "assistant", content := some r }] with hl
    by_cases hlen : l.length > 20
    · simp [hlen]
    · have h20 : l.length - 20 = 0 := by omega
      simp [hlen, pyLastN, h20]
  · simp [saveConversation, hx]

/-- C4: the retained history after a save is exactly the most recent 20
entries (in insertion order) of the old history extended with the new
`(user, assistant)` pair, and along any sequence of save/clear operations
from the initial empty store no user's history ever exceeds 20 entries. -/
theorem c4_history_cap_fifo :
    (∀ (history : String → List PyMsg) (u q r x : String),
        saveConversation history u q r x =
          if x = u then
            pyLastN 20 (history u ++
              [{ role := "user", content := some q },
               { role := "assistant", content := some r }])
          else history x) ∧
    (∀ (ops : List HistOp) (x : String),
        (runHistOps (fun _ => []) ops x).length ≤ 20) := by
  have hsave := saveConversation_eq
  refine ⟨hsave, ?_⟩
  have key : ∀ (ops : List HistOp) (h : String → List PyMsg),
      (∀ x, (h x).length ≤ 20) →
      ∀ x, (runHistOps h ops x).length ≤ 20 := by
    intro ops
    induction ops with
    | nil => intro h hh x; exact hh x
    | cons op rest ih =>
      intro h hh x
      cases op with
      | save u q r =>
        refine ih _ ?_ x
        intro y
        rw [hsave]
        by_cases hy : y = u
        · simp only [if_pos hy, pyLastN, List.length_drop]
          omega
        · simp only [if_neg hy]
          exact hh y
      | clear u =>
        refine ih _ ?_ x
        intro y
        by_cases hy : y = u <;> simp [clearConversation, hy]
        exact hh y
  intro ops x
  exact key ops (fun _ => []) (fun _ => by simp) x

theorem findRow_some_key {db : List UserRow} {uid : String} {r : UserRow}
    (h : findRow db uid = some r) : r.mm_user_id = uid := by
  have := List.find?_some h
  simpa using this

theorem findRow_map_keep (f : UserRow → UserRow)
    (hf : ∀ x, (f x).mm_user_id = x.mm_user_id)
    (db : List UserRow) (uid : String) (r : UserRow)
    (h : findRow db uid = some r) :
    findRow (db.map f) uid = some (f r) := by
  induction db with
  | nil => simp [findRow] at h
  | cons a as ih =>
    by_cases ha : a.mm_user_id = uid
    · have h1 : findRow (a :: as) uid = some a := by
        simp [findRow, List.find?_cons_of_pos, ha]
      rw [h1] at h
      rw [Option.some.injEq] at h
      subst h
      simp [findRow, List.find?_cons_of_pos, hf, ha]
    · have h1 : findRow (a :: as) uid = findRow as uid := by
        simp [findRow, List.find?_cons_of_neg, ha]
      rw [h1] at h
      have h2 := ih h
      simp only [List.map_cons, findRow] at h2 ⊢
      rw [List.find?_cons_of_neg, h2]
      simp [hf, ha]

/-- C10: an upsert for an existing user that passes only the Jira fields
leaves the Confluence fields (and `created_at`) unchanged, and symmetrically
a Confluence-only upsert leaves the Jira fields unchanged; in both cases
only the supplied fields and `updated_at` change, and rows of other users
are untouched. -/
theorem c10_upsert_frame (cipher : Cipher) (now : String) (db : List UserRow)
    (mm_user_id : String) (r : UserRow)
    (hfind : findRow db mm_user_id = some r) :
    (∀ ju jp,
      findRow (saveUserCredentials cipher now db mm_user_id ju jp none none)
          mm_user_id =
        some { r with
               jira_username := if ju.isSome then ju else r.jira_username
               jira_password_encrypted :=
                 if jp.isSome then
                   (if optTruthy jp then
                      some (storageEncrypt cipher (jp.getD "")) else none)
                 else r.jira_password_encrypted
               updated_at := now }) ∧
    (∀ cu cp,
      findRow (saveUserCredentials cipher now db mm_user_id none none cu cp)
          mm_user_id =
        some { r with
               confluence_username := if cu.isSome then cu else r.confluence_username
               confluence_password_encrypted :=
                 if cp.isSome then
                   (if optTruthy cp then
                      some (storageEncrypt cipher (cp.getD "")) else none)
                 else r.confluence_password_encrypted
               updated_at := now }) ∧
    (∀ ju jp cu cp, ∀ x ∈ db, x.mm_user_id ≠ mm_user_id →
      x ∈ saveUserCredentials cipher now db mm_user_id ju jp cu cp) := by
  have hex : (findRow db mm_user_id).isSome := by rw [hfind]; rfl
  have hkey : r.mm_user_id = mm_user_id := findRow_some_key hfind
  refine ⟨?_, ?_, ?_⟩
  · intro ju jp
    simp only [saveUserCredentials, hex, if_true]
    rw [findRow_map_keep _ (fun x => by by_cases hx : x.mm_user_id = mm_user_id <;>
      simp [hx]) db mm_user_id r hfind]
    simp [hkey]
  · intro cu cp
    simp only [saveUserCredentials, hex, if_true]
    rw [findRow_map_keep _ (fun x => by by_cases hx : x.mm_user_id = mm_user_id <;>
      simp [hx]) db mm_user_id r hfind]
    simp [hkey]
  · intro ju jp cu cp x hx hne
    simp only [saveUserCredentials, hex, if_true]
    refine List.mem_map.mpr ⟨x, hx, ?_⟩
    simp [hne]

/-- Witness for C10 at a concrete two-row store. -/
theorem c10_witness :
    findRow (saveUserCredentials hashCipher "t1" [rowU1, rowU2] "u1"
        (some "bob") (some "npass") none none) "u1" =
      some { rowU1 with
             jira_username := some "bob"
             jira_password_encrypted := some (storageEncrypt hashCipher "npass")
             updated_at := "t1" } ∧
    rowU2 ∈ saveUserCredentials hashCipher "t1" [rowU1, rowU2] "u1"
        (some "bob") (some "npass") none none := by
  have T := c10_upsert_frame hashCipher "t1" [rowU1, rowU2] "u1" rowU1 (by rfl)
  refine ⟨?_, T.2.2 (some "bob") (some "npass") none none rowU2 (by simp)
    (by decide)⟩
  have h1 := T.1 (some "bob") (some "npass")
  simpa [optTruthy] using h1

/-- C1 (code evaluation at the failing input): for any user who is in the
`AWAITING_PASSWORD` state with a candidate username stored, handling the
incoming message raises `AttributeError` — `handlers.py:158` calls
`self.auth_manager.save_and_validate_both`, an attribute `AuthManager` does
not define — instead of invoking validation and returning a reply string as
the claim (and the source's own success/failure handling right below the
call) describes. -/
theorem c1_password_branch_raises (jira_url : String)
    (confluence_url : Option String) (valRes : Bool × Option String)
    (st : DialogSt) (mm_user_id message uname : String)
    (husr : assocFind st.temp_data mm_user_id = some (some uname)) :
    handleDialogState jira_url confluence_url valRes st mm_user_id message
        DIALOG_STATE_WAITING_PASSWORD = .error attributeErrorBoth := by
  simp [handleDialogState, DIALOG_STATE_WAITING_USERNAME,
    DIALOG_STATE_WAITING_PASSWORD, authManagerAttrs, husr]

/-- Witness for C1 at the concrete failing input. -/
theorem c1_witness :
    handleDialogState "https://jira.example.com" none (true, none) dialogStU1
        "u1" "wrongpass" DIALOG_STATE_WAITING_PASSWORD =
      .error attributeErrorBoth :=
  c1_password_branch_raises "https://jira.example.com" none (true, none)
    dialogStU1 "u1" "wrongpass" "maria" (by rfl)

/-- C6: `_get_or_create_session` is idempotent per user — with a cached
live session it returns the cached handle having performed no handshake
step — and any failing outcome (missing server URL or a failure in any of
the three handshake steps) leaves the session and context maps exactly as
they were: no partial session is cached. -/
theorem c6_session_idempotent_clean_fail (T S : Type) :
    (∀ (hs : HsOracle T S) (st : MCPState T S) (uid : String) (s : S),
        assocFind st.user_sessions uid = some s →
        getOrCreateSession hs st uid = (.ok s, st, [])) ∧
    (∀ (hs : HsOracle T S) (st : MCPState T S) (uid : String) (e : String)
        (st2 : MCPState T S) (steps : List HsStep),
        getOrCreateSession hs st uid = (.error e, st2, steps) → st2 = st) := by
  constructor
  · intro hs st uid s hcache
    simp [getOrCreateSession, hcache]
  · intro hs st uid e st2 steps h
    unfold getOrCreateSession at h
    cases hc : assocFind st.user_sessions uid with
    | some s =>
      rw [hc] at h
      simp at h
    | none =>
      rw [hc] at h
      cases hurl : optTruthy st.mcp_url with
      | false =>
        simp only [hurl, Bool.not_false, if_true] at h
        simp at h
        exact h.2.1.symm
      | true =>
        simp only [hurl, Bool.not_true, Bool.false_eq_true, if_false] at h
        cases hctx : hs.enterCtx with
        | error e2 =>
          rw [hctx] at h
          simp at h
          exact h.2.1.symm
        | ok ctx =>
          rw [hctx] at h
          dsimp only at h
          cases hses : hs.enterSession ctx with
          | error e2 =>
            rw [hses] at h
            simp at h
            exact h.2.1.symm
          | ok s =>
            rw [hses] at h
            dsimp only at h
            cases hini : hs.doInit s with
            | error e2 =>
              rw [hini] at h
              simp at h
              exact h.2.1.symm
            | ok u =>
              rw [hini] at h
              simp at h

/-- Witness for C6: the cached case returns the cached handle with the
state untouched and no handshake step run, and the state after a failing
handshake (`doInit` fails for the uncached user `u1`) equals the original
state. -/
theorem c6_witness :
    getOrCreateSession c6Oracle c6St "u2" = (.ok 7, c6St, []) ∧
      (getOrCreateSession c6Oracle c6St "u1").2.1 = c6St :=
  ⟨(c6_session_idempotent_clean_fail Nat Nat).1 c6Oracle c6St "u2" 7 (by rfl),
   (c6_session_idempotent_clean_fail Nat Nat).2 c6Oracle c6St "u1" "init failed"
     (getOrCreateSession c6Oracle c6St "u1").2.1
     [.transport, .session, .protoInit] (by rfl)⟩

theorem queryLoop_calls_le (chatFn : List PyMsg → Except String LLMResult)
    (loads : String → Except String Json)
    (callTool : String → Json → Except String String) :
    ∀ (fuel : Nat) (msgs : List PyMsg) (acc : List String),
      (queryLoop chatFn loads callTool fuel msgs acc).llm_calls ≤ fuel := by
  intro fuel
  induction fuel with
  | zero => intro msgs acc; exact Nat.le_refl 0
  | succ n ih =>
    intro msgs acc
    simp only [queryLoop]
    cases hch : chatFn msgs with
    | error e => show (1 : Nat) ≤ n + 1; omega
    | ok response =>
      by_cases htc : toolCallsTruthy response.tool_calls = true
      · simp only [htc, if_true]
        cases hcv : convertToolCalls loads (response.tool_calls.getD []) with
        | error e => show (1 : Nat) ≤ n + 1; omega
        | ok conv => exact Nat.succ_le_succ (ih _ _)
      · simp only [htc, if_neg]
        show (1 : Nat) ≤ n + 1
        omega

theorem convert_ok_of_parses (loads : String → Except String Json)
    (tcs : List ToolCallRec)
    (hp : ∀ tc ∈ tcs, ∃ j, loads tc.argumentsStr = .ok j) :
    ∃ cs, convertToolCalls loads tcs = .ok cs := by
  induction tcs with
  | nil => exact ⟨[], rfl⟩
  | cons tc rest ih =>
    obtain ⟨j, hj⟩ := hp tc (by simp)
    obtain ⟨cs, hcs⟩ := ih (fun x hx => hp x (by simp [hx]))
    exact ⟨{ id := tc.id, name := tc.name, arguments := j } :: cs,
      by simp [convertToolCalls, hj, hcs]⟩

theorem queryLoop_exhaust (chatFn : List PyMsg → Except String LLMResult)
    (loads : String → Except String Json)
    (callTool : String → Json → Except String String)
    (hall : ∀ msgs, ∃ res, chatFn msgs = .ok res ∧
      toolCallsTruthy res.tool_calls = true)
    (hparse : ∀ msgs res, chatFn msgs = .ok res →
      ∀ tc ∈ res.tool_calls.getD [], ∃ j, loads tc.argumentsStr = .ok j) :
    ∀ (fuel : Nat) (msgs : List PyMsg) (acc : List String),
      (queryLoop chatFn loads callTool fuel msgs acc).llm_calls = fuel ∧
      (queryLoop chatFn loads callTool fuel msgs acc).outcome = .ok (
        if (queryLoop chatFn loads callTool fuel msgs acc).all_results.isEmpty then
          "Не удалось завершить запрос - слишком много итераций"
        else
          "Результаты выполнения (достигнут лимит запросов):\n" ++
            joinResults (queryLoop chatFn loads callTool fuel msgs acc).all_results) := by
  intro fuel
  induction fuel with
  | zero => intro msgs acc; exact ⟨rfl, rfl⟩
  | succ n ih =>
    intro msgs acc
    obtain ⟨res, hch, htc⟩ := hall msgs
    obtain ⟨conv, hcv⟩ :=
      convert_ok_of_parses loads (res.tool_calls.getD []) (hparse msgs res hch)
    simp only [queryLoop, hch, htc, if_true, hcv]
    exact ⟨congrArg (fun k => k + 1) (ih _ _).1, (ih _ _).2⟩

/-- C2: the orchestration loop makes at most 5 model-gateway calls for any
gateway and tool behaviour; and when the gateway requests tool calls on
every round (with parseable arguments, as the real gateway produces), the
budget is exhausted after exactly 5 calls, the reply is the best-effort
summary of the accumulated tool results (or the fixed fallback when none
were gathered), and the `(user, assistant)` exchange is still appended to
the user's conversation history. -/
theorem c2_round_budget (loads : String → Except String Json)
    (chatFn : List PyMsg → Except String LLMResult)
    (callTool : String → Json → Except String String)
    (today year : String) (history : String → List PyMsg)
    (mm_user_id query : String) (tools : List MCPTool) :
    (handleUserQuery loads chatFn callTool today year history mm_user_id
        query tools).1.llm_calls ≤ 5 ∧
    (tools ≠ [] →
      (∀ msgs, ∃ res, chatFn msgs = .ok res ∧
        toolCallsTruthy res.tool_calls = true) →
      (∀ msgs res, chatFn msgs = .ok res →
        ∀ tc ∈ res.tool_calls.getD [], ∃ j, loads tc.argumentsStr = .ok j) →
      (handleUserQuery loads chatFn callTool today year history mm_user_id
          query tools).1.llm_calls = 5 ∧
      (∃ results : List String,
        (handleUserQuery loads chatFn callTool today year history mm_user_id
            query tools).1.reply =
          (if results.isEmpty then
            "Не удалось завершить запрос - слишком много итераций"
          else
            "Результаты выполнения (достигнут лимит запросов):\n" ++
              joinResults results)) ∧
      ((handleUserQuery loads chatFn callTool today year history mm_user_id
          query tools).2) mm_user_id =
        pyLastN 20 (history mm_user_id ++
          [{ role := "user", content := some query },
           { role := "assistant",
             content := some (handleUserQuery loads chatFn callTool today year
               history mm_user_id query tools).1.reply }])) := by
  constructor
  · by_cases hte : tools.isEmpty
    · simp [handleUserQuery, hte]
    · simp only [handleUserQuery, hte, Bool.false_eq_true, if_false]
      cases hout : (queryLoop chatFn loads callTool 5
          ({ role := "system", content := some (systemContent today year) } ::
            history mm_user_id ++ [{ role := "user", content := some query }])
          []).outcome with
      | ok fin =>
        simp only [hout]
        exact queryLoop_calls_le chatFn loads callTool 5 _ _
      | error e =>
        simp only [hout]
        exact queryLoop_calls_le chatFn loads callTool 5 _ _
  · intro hne hall hparse
    have hte : tools.isEmpty = false := by
      cases tools with
      | nil => exact absurd rfl hne
      | cons t ts => rfl
    have hx := queryLoop_exhaust chatFn loads callTool hall hparse 5
      ({ role := "system", content := some (systemContent today year) } ::
        history mm_user_id ++ [{ role := "user", content := some query }]) []
    simp only [handleUserQuery, hte, Bool.false_eq_true, if_false, hx.2]
    refine ⟨hx.1, ⟨_, rfl⟩, ?_⟩
    rw [saveConversation_eq]
    simp

/-- Witness for C2: a gateway that requests `search_users` on every round
exhausts the budget at 5 calls and the handler still saves the exchange. -/
theorem c2_witness :
    (handleUserQuery jsonLoads chatAlwaysTool callToolOk "2026-10-12" "2026"
        (fun _ => []) "u1" "мои задачи" [mcpSearchUsers]).1.llm_calls = 5 ∧
    (∃ results : List String,
      (handleUserQuery jsonLoads chatAlwaysTool callToolOk "2026-10-12" "2026"
          (fun _ => []) "u1" "мои задачи" [mcpSearchUsers]).1.reply =
        (if results.isEmpty then
          "Не удалось завершить запрос - слишком много итераций"
        else
          "Результаты выполнения (достигнут лимит запросов):\n" ++
            joinResults results)) ∧
    ((handleUserQuery jsonLoads chatAlwaysTool callToolOk "2026-10-12" "2026"
        (fun _ => []) "u1" "мои задачи" [mcpSearchUsers]).2) "u1" =
      pyLastN 20 ((fun (_ : String) => ([] : List PyMsg)) "u1" ++
        [{ role := "user", content := some "мои задачи" },
         { role := "assistant",
           content := some (handleUserQuery jsonLoads chatAlwaysTool callToolOk
             "2026-10-12" "2026" (fun _ => []) "u1" "мои задачи"
             [mcpSearchUsers]).1.reply }]) :=
  (c2_round_budget jsonLoads chatAlwaysTool callToolOk "2026-10-12" "2026"
      (fun _ => []) "u1" "мои задачи" [mcpSearchUsers]).2
    (by simp)
    (fun msgs => ⟨_, rfl, rfl⟩)
    (fun msgs res h tc htc => by
      rw [chatAlwaysTool] at h
      rw [Except.ok.injEq] at h
      subst h
      simp only [Option.getD_some, List.mem_singleton] at htc
      subst htc
      exact ⟨.obj [], by rfl⟩)

theorem extractLoop_names (loads : String → Except String Json)
    (names : List String) :
    ∀ (i : Nat) (gs : List String) (tcs : List ToolCallRec),
      extractLoop loads names i gs = .ok tcs →
      ∀ tc ∈ tcs, tc.name ∈ names := by
  intro i gs
  induction gs generalizing i with
  | nil =>
    intro tcs h tc htc
    simp only [extractLoop] at h
    rw [Except.ok.injEq] at h
    subst h
    simp at htc
  | cons g gs ih =>
    intro tcs h tc htc
    simp only [extractLoop] at h
    split at h
    · exact ih _ tcs h tc htc
    · rename_i fields heq
      split at h
      · simp at h
      · rename_i rest hrest
        rw [Except.ok.injEq] at h
        subst h
        split at htc
        · rename_i tc0 hkeep
          split at hkeep
          · rename_i s hname
            split at hkeep
            · rename_i hm
              rw [Option.some.injEq] at hkeep
              subst hkeep
              rcases List.mem_cons.mp htc with h1 | h1
              · subst h1; exact hm
              · exact ih _ rest hrest tc h1
            · simp at hkeep
          · simp at hkeep
        · exact ih _ rest hrest tc htc
    · simp at h

theorem extractToolCalls_names (loads : String → Except String Json)
    (content : String) (tools : List OAITool) (tcs : List ToolCallRec)
    (h : extractToolCalls loads content tools = .ok (some tcs)) :
    ∀ tc ∈ tcs, tc.name ∈ toolNames tools := by
  unfold extractToolCalls at h
  by_cases hf : (findGroups content).isEmpty
  · simp [hf] at h
  · simp only [hf, Bool.false_eq_true, if_false] at h
    cases hr : extractLoop loads (toolNames tools) 0 (findGroups content) with
    | error e => rw [hr] at h; simp at h
    | ok l =>
      rw [hr] at h
      dsimp only at h
      by_cases hl : l.isEmpty
      · simp [hl] at h
      · simp only [hl, Bool.false_eq_true, if_false, Except.ok.injEq,
          Option.some.injEq] at h
        subst h
        exact extractLoop_names loads (toolNames tools) 0 (findGroups content)
          l hr

theorem chatResult_tool_names (loads : String → Except String Json)
    (raw : String) (tools : List OAITool) (res : LLMResult)
    (tcs : List ToolCallRec)
    (h : chatResult loads raw tools = .ok res)
    (htc : res.tool_calls = some tcs) :
    ∀ tc ∈ tcs, tc.name ∈ toolNames tools := by
  unfold chatResult at h
  by_cases hto : tools.isEmpty
  · simp only [hto, if_true] at h
    rw [Except.ok.injEq] at h
    subst h
    simp at htc
  · simp only [hto, Bool.false_eq_true, if_false] at h
    cases he : extractToolCalls loads raw tools with
    | error e => rw [he] at h; simp at h
    | ok otc =>
      rw [he] at h
      dsimp only at h
      rw [Except.ok.injEq] at h
      subst h
      dsimp only at htc
      subst htc
      exact extractToolCalls_names loads raw tools tcs he

theorem processOneCall_invoked_name (loads : String → Except String Json)
    (callTool : String → Json → Except String String) (tc : ToolCallRec)
    (nm : String) (args : Json)
    (h : (processOneCall loads callTool tc).invokedCall = some (nm, args)) :
    nm = tc.name := by
  unfold processOneCall at h
  cases hl : loads tc.argumentsStr with
  | error e => rw [hl] at h; simp at h
  | ok j =>
    rw [hl] at h
    dsimp only at h
    cases hc : callTool tc.name j with
    | ok r =>
      rw [hc] at h
      simp only [Option.some.injEq, Prod.mk.injEq] at h
      exact h.1.symm
    | error e =>
      rw [hc] at h
      simp only [Option.some.injEq, Prod.mk.injEq] at h
      exact h.1.symm

theorem processToolCalls_invoked_names (loads : String → Except String Json)
    (callTool : String → Json → Except String String) :
    ∀ (tcs : List ToolCallRec) (nm : String) (args : Json),
      (nm, args) ∈ (processToolCalls loads callTool tcs).invoked →
      ∃ tc ∈ tcs, nm = tc.name := by
  intro tcs
  induction tcs with
  | nil => intro nm args h; simp [processToolCalls] at h
  | cons tc rest ih =>
    intro nm args h
    simp only [processToolCalls] at h
    rcases List.mem_append.mp h with h1 | h1
    · cases hone : (processOneCall loads callTool tc).invokedCall with
      | none => rw [hone] at h1; simp at h1
      | some p =>
        rw [hone] at h1
        simp only [Option.toList_some, List.mem_singleton] at h1
        subst h1
        exact ⟨tc, by simp,
          processOneCall_invoked_name loads callTool tc nm args hone⟩
    · obtain ⟨tc2, htc2, heq⟩ := ih nm args h1
      exact ⟨tc2, by simp [htc2], heq⟩

theorem queryLoop_invoked_names (loads : String → Except String Json)
    (rawOracle : List PyMsg → Except String String)
    (oaTools : List OAITool)
    (callTool : String → Json → Except String String) :
    ∀ (fuel : Nat) (msgs : List PyMsg) (acc : List String)
      (nm : String) (args : Json),
      (nm, args) ∈ (queryLoop (chatOf loads rawOracle oaTools) loads callTool
        fuel msgs acc).invoked →
      nm ∈ toolNames oaTools := by
  intro fuel
  induction fuel with
  | zero => intro msgs acc nm args h; simp [queryLoop] at h
  | succ n ih =>
    intro msgs acc nm args h
    simp only [queryLoop] at h
    cases hch : chatOf loads rawOracle oaTools msgs with
    | error e => rw [hch] at h; simp at h
    | ok response =>
      rw [hch] at h
      dsimp only at h
      by_cases htc : toolCallsTruthy response.tool_calls = true
      · simp only [htc, if_true] at h
        obtain ⟨tcs, hts⟩ : ∃ tcs, response.tool_calls = some tcs := by
          cases hcs : response.tool_calls with
          | none => rw [hcs] at htc; simp [toolCallsTruthy] at htc
          | some l => exact ⟨l, rfl⟩
        have hnames : ∀ tc ∈ tcs, tc.name ∈ toolNames oaTools := by
          unfold chatOf at hch
          cases hro : rawOracle msgs with
          | error e => rw [hro] at hch; simp at hch
          | ok raw =>
            rw [hro] at hch
            exact chatResult_tool_names loads raw oaTools response tcs hch hts
        rw [hts] at h
        simp only [Option.getD_some] at h
        have hround : ∀ (h1 : (nm, args) ∈
            (processToolCalls loads callTool tcs).invoked),
            nm ∈ toolNames oaTools := by
          intro h1
          obtain ⟨tc, htcm, heq⟩ :=
            processToolCalls_invoked_names loads callTool tcs nm args h1
          rw [heq]
          exact hnames tc htcm
        cases hcv : convertToolCalls loads tcs with
        | error e =>
          rw [hcv] at h
          dsimp only at h
          exact hround h
        | ok conv =>
          rw [hcv] at h
          dsimp only at h
          rcases List.mem_append.mp h with h1 | h1
          · exact hround h1
          · exact ih _ _ nm args h1
      · simp only [htc, if_neg] at h
        simp at h

/-- C5: every parsed tool-call descriptor whose capability name is not in
the supplied manifest is dropped from the `tool_calls` that `chat` returns
(every surviving call's name is in the manifest), and during a whole
exchange driven through `chat`, `call_tool` is never invoked with a name
outside the manifest. -/
theorem c5_capability_filter (loads : String → Except String Json)
    (rawOracle : List PyMsg → Except String String)
    (callTool : String → Json → Except String String)
    (today year : String) (history : String → List PyMsg)
    (mm_user_id query : String) (tools : List MCPTool) :
    (∀ (content : String) (oatools : List OAITool) (tcs : List ToolCallRec),
      extractToolCalls loads content oatools = .ok (some tcs) →
      ∀ tc ∈ tcs, tc.name ∈ toolNames oatools) ∧
    (∀ (nm : String) (args : Json),
      (nm, args) ∈ (handleUserQuery loads
        (chatOf loads rawOracle (formatMcpToolsForOpenai tools)) callTool
        today year history mm_user_id query tools).1.invoked →
      nm ∈ tools.map MCPTool.name) := by
  constructor
  · intro content oatools tcs h
    exact extractToolCalls_names loads content oatools tcs h
  · intro nm args h
    have hnf : toolNames (formatMcpToolsForOpenai tools) =
        tools.map MCPTool.name := by
      simp [toolNames, formatMcpToolsForOpenai, List.map_map, Function.comp]
    rw [← hnf]
    by_cases hte : tools.isEmpty
    · simp [handleUserQuery, hte] at h
    · simp only [handleUserQuery, hte, Bool.false_eq_true, if_false] at h
      cases hout : (queryLoop
          (chatOf loads rawOracle (formatMcpToolsForOpenai tools)) loads
          callTool 5
          ({ role := "system", content := some (systemContent today year) } ::
            history mm_user_id ++ [{ role := "user", content := some query }])
          []).outcome with
      | ok fin =>
        rw [hout] at h
        dsimp only at h
        exact queryLoop_invoked_names loads rawOracle _ callTool 5 _ _ nm args h
      | error e =>
        rw [hout] at h
        dsimp only at h
        exact queryLoop_invoked_names loads rawOracle _ callTool 5 _ _ nm args h

set_option maxRecDepth 4000 in
/-- Witness for C5: on a model output carrying one known and one unknown
capability call, the surviving extracted call's name is in the manifest. -/
theorem c5_witness :
    "search_users" ∈ toolNames (formatMcpToolsForOpenai [mcpSearchUsers]) :=
  (c5_capability_filter jsonLoads rawOracleTwoCalls callToolOk "2026-10-12"
      "2026" (fun _ => []) "u1" "q" [mcpSearchUsers]).1
    rawTwoCalls (formatMcpToolsForOpenai [mcpSearchUsers])
    [{ id := "call_0", name := "search_users",
       argumentsStr := jsonDumps (.obj [("query", .str "t")]) }]
    (by rfl)
    { id := "call_0", name := "search_users",
      argumentsStr := jsonDumps (.obj [("query", .str "t")]) }
    (by simp)

/-- C7: within a round, every requested tool call yields exactly one tool
turn, computed independently of the other calls of the round (the round's
turns are the per-call map); an invocation that raises is captured as a
placeholder turn (`Ошибка: ...` in the tool role) after the invocation was
performed; and a round whose calls raised still continues to the next loop
iteration — the exchange is never aborted by a failed invocation. -/
theorem c7_invocation_error_isolated (loads : String → Except String Json)
    (callTool : String → Json → Except String String) :
    (∀ tcs : List ToolCallRec,
      (processToolCalls loads callTool tcs).tool_results =
        tcs.map (fun tc => (processOneCall loads callTool tc).turn)) ∧
    (∀ (tc : ToolCallRec) (args : Json) (e : String),
      loads tc.argumentsStr = .ok args →
      callTool tc.name args = .error e →
      processOneCall loads callTool tc =
        { turn := { role := "tool", content := some ("Ошибка: " ++ e),
                    tool_call_id := some tc.id },
          resultStr := none, invokedCall := some (tc.name, args) }) ∧
    (∀ (chatFn : List PyMsg → Except String LLMResult) (fuel : Nat)
        (msgs : List PyMsg) (acc : List String) (response : LLMResult)
        (tcs : List ToolCallRec) (conv : List ConvCall),
      chatFn msgs = .ok response →
      response.tool_calls = some tcs →
      tcs ≠ [] →
      convertToolCalls loads tcs = .ok conv →
      queryLoop chatFn loads callTool (fuel + 1) msgs acc =
        (let round := processToolCalls loads callTool tcs
         let rest := queryLoop chatFn loads callTool fuel
           (msgs ++ [{ role := "assistant", content := some response.content,
                       tool_calls := some conv }] ++ round.tool_results)
           (acc ++ round.all_results)
         { rest with llm_calls := rest.llm_calls + 1,
                     invoked := round.invoked ++ rest.invoked })) := by
  refine ⟨?_, ?_, ?_⟩
  · intro tcs
    induction tcs with
    | nil => rfl
    | cons tc rest ih => simp [processToolCalls, ih]
  · intro tc args e hl hc
    simp [processOneCall, hl, hc]
  · intro chatFn fuel msgs acc response tcs conv hch hts hne hcv
    have htc2 : toolCallsTruthy (some tcs) = true := by
      simp [toolCallsTruthy, hne]
    simp only [queryLoop, hch, hts, Option.getD_some, hcv, htc2, if_true]

/-- Witness for C7: a boundary that raises on every invocation still
produces one placeholder turn per call, records the invocation, and the
loop proceeds into the next round (two gateway calls for fuel 2). -/
theorem c7_witness :
    (processToolCalls jsonLoads callToolBoom [tcSearch]).tool_results =
      [tcSearch].map (fun tc => (processOneCall jsonLoads callToolBoom tc).turn) ∧
    processOneCall jsonLoads callToolBoom tcSearch =
      { turn := { role := "tool",
                  content := some ("Ошибка: " ++ "MCP session error"),
                  tool_call_id := some "call_0" },
        resultStr := none, invokedCall := some ("search_users", .obj []) } ∧
    (queryLoop chatAlwaysTool jsonLoads callToolBoom (1 + 1) [] []).llm_calls = 2 := by
  refine ⟨(c7_invocation_error_isolated jsonLoads callToolBoom).1 [tcSearch],
    (c7_invocation_error_isolated jsonLoads callToolBoom).2.1 tcSearch
      (.obj []) "MCP session error" (by rfl) (by rfl), ?_⟩
  rw [(c7_invocation_error_isolated jsonLoads callToolBoom).2.2 chatAlwaysTool
    1 [] [] { content := "", tool_calls := some [tcSearch] } [tcSearch]
    [{ id := "call_0", name := "search_users", arguments := .obj [] }]
    (by rfl) (by rfl) (by simp) (by rfl)]
  rfl

theorem strMk_toList (s : String) : String.mk s.toList = s := by
  cases s
  rfl

theorem extractLoop_all_err (loads : String → Except String Json)
    (names : List String) :
    ∀ (i : Nat) (gs : List String),
      (∀ g ∈ gs, ∃ e, loads g = .error e) →
      extractLoop loads names i gs = .ok [] := by
  intro i gs
  induction gs generalizing i with
  | nil => intro hall; rfl
  | cons g gs ih =>
    intro hall
    obtain ⟨e, he⟩ := hall g (by simp)
    simp only [extractLoop, he]
    exact ih (i + 1) (fun x hx => hall x (by simp [hx]))

theorem scanSub_id_of_no_groups :
    ∀ (fuel : Nat) (cs : List Char),
      scanGroups fuel cs = [] → scanSub fuel cs = cs := by
  intro fuel
  induction fuel with
  | zero => intro cs h; cases cs <;> rfl
  | succ n ih =>
    intro cs h
    cases cs with
    | nil => rfl
    | cons c rest =>
      simp only [scanGroups] at h
      cases hm : tryMatchAt (c :: rest) with
      | some p =>
        rw [hm] at h
        simp at h
      | none =>
        rw [hm] at h
        simp only [scanSub, hm]
        rw [ih rest h]

set_option maxRecDepth 4000 in
/-- C9 counterexample: for the model output consisting of one
sentinel-delimited descriptor whose brace-delimited body `\x7bbad\x7d` is
not valid JSON, `chat` produces no invocation — but the visible text it
returns is empty: `_clean_content` strips the malformed block instead of
leaving it in the visible text as the claim states. -/
theorem c9_counterexample :
    chatResult jsonLoads "<tool_call>\x7bbad\x7d</tool_call>"
        (formatMcpToolsForOpenai [mcpSearchUsers]) =
      .ok { content := "", tool_calls := none } ∧
    "<tool_call>\x7bbad\x7d</tool_call>" ≠ "" := by
  exact ⟨rfl, by decide⟩

/-- C9 (amended): a descriptor whose body fails JSON parsing yields no
invocation (when every captured group fails to parse, extraction returns
`None`); output without any brace-delimited descriptor is passed through
unchanged (up to the unconditional `.strip()`), and in particular a
descriptor whose body is not a brace-delimited token stays in the visible
text; but a brace-delimited body that fails JSON parsing is stripped from
the visible text even though it produced no invocation. -/
theorem c9_malformed_descriptor_amended (loads : String → Except String Json) :
    (∀ (content : String) (tools : List OAITool),
      (∀ g ∈ findGroups content, ∃ e, loads g = .error e) →
      extractToolCalls loads content tools = .ok none) ∧
    (∀ content : String, findGroups content = [] →
      cleanContent content = pyStrip content) ∧
    cleanContent "пре <tool_call>не json</tool_call> пост" =
      "пре <tool_call>не json</tool_call> пост" ∧
    cleanContent "<tool_call>\x7bбяка\x7d</tool_call>" = "" := by
  refine ⟨?_, ?_, ?_, ?_⟩
  · intro content tools hall
    unfold extractToolCalls
    by_cases hf : (findGroups content).isEmpty
    · simp [hf]
    · simp only [hf, Bool.false_eq_true, if_false]
      rw [extractLoop_all_err loads (toolNames tools) 0 (findGroups content)
        hall]
      rfl
  · intro content hfg
    have hsg : scanGroups content.toList.length content.toList = [] := by
      unfold findGroups at hfg
      exact List.map_eq_nil_iff.mp hfg
    unfold cleanContent
    rw [scanSub_id_of_no_groups _ _ hsg, strMk_toList]
  · rfl
  · rfl

set_option maxRecDepth 4000 in
/-- Witness for C9's amended statement at concrete model outputs. -/
theorem c9_witness :
    extractToolCalls jsonLoads "<tool_call>\x7bbad\x7d</tool_call>"
        (formatMcpToolsForOpenai [mcpSearchUsers]) = .ok none ∧
    cleanContent "привет" = pyStrip "привет" :=
  ⟨(c9_malformed_descriptor_amended jsonLoads).1
      "<tool_call>\x7bbad\x7d</tool_call>"
      (formatMcpToolsForOpenai [mcpSearchUsers])
      (fun g hg => by
        have he : findGroups "<tool_call>\x7bbad\x7d</tool_call>" =
            ["\x7bbad\x7d"] := rfl
        rw [he] at hg
        rw [List.mem_singleton] at hg
        subst hg
        exact ⟨"Expecting property name", rfl⟩),
   (c9_malformed_descriptor_amended jsonLoads).2.1 "привет" (by rfl)⟩

end MMBot
